import Mathlib

/-!
Verification of the EmuMevzuatAgent retrieval pipeline.

This file is a shallow embedding, in Lean 4, of the core of the
EmuMevzuatAgent repository: the query router (`app/agent/nodes/router.py`),
the retrieval engine with RRF fusion and its fallback chain
(`app/agent/nodes/retrieve.py`), the heuristic relevance grader
(`app/agent/nodes/grade.py`), the answer stage
(`app/agent/nodes/generate.py`) and the linear LangGraph workflow
(`app/agent/graph.py`).

Modelling conventions:
* Python floats are modelled as exact rationals (`ℚ`); the score formulas of
  the source are algebraic, so no rounding behaviour is lost.
* Python strings are modelled as `String` / `List Char`; `\w` of the
  `re` module is modelled as ASCII alphanumerics, underscore and the
  Turkish letters that occur in the repository's patterns.
* Fallible I/O (the SQL store, the embedding service, the LLM) is modelled
  with `Option` / `Except`: `none` / `.error` is a raised exception.
* Python `dict` comprehensions keep the *last* binding of a duplicated key
  and Python `set` iteration order is arbitrary but deterministic; the set
  union in the RRF fusion is modelled in first-insertion order, which the
  spec explicitly allows ("arbitrary-but-stable").
-/

/-! ## Data model (`app/agent/state.py`) -/

/-- Query type detected by the router (`QueryType` in `state.py`). -/
inductive QueryType where
  | CODE
  | METADATA
  | VECTOR
deriving DecidableEq

/-- The `.value` of the Python string enum. -/
def QueryType.value : QueryType → String
  | .CODE => "code"
  | .METADATA => "metadata"
  | .VECTOR => "vector"

/-- Structured retrieval result with provenance (`RetrievedChunk`). -/
structure RetrievedChunk where
  chunk_id : Nat
  reg_doc_id : Nat
  reg_code : String
  url : Option String := none
  heading : Option String := none
  content : String
  score_vec : ℚ := 0
  score_fts : ℚ := 0
  rrf_rank : ℚ := 0
deriving DecidableEq

/-- Structured output from the document grader (`GradeResult`). -/
structure GradeResult where
  is_relevant : Bool
  reason : String
  confidence : ℚ
deriving DecidableEq

/-- Structured output from the query router (`RouterResult`). -/
structure RouterResult where
  query_type : QueryType
  extracted_code : Option String
  extracted_metadata : Option String
  reasoning : String
deriving DecidableEq

/-- Citation for a claim in the response (`Citation`). -/
structure Citation where
  reg_code : String
  url : Option String := none
  chunk_id : Nat
  excerpt : String
deriving DecidableEq

/-- Structured output from the answer generator (`GenerationResult`). -/
structure GenerationResult where
  answer : String
  citations : List Citation
  confidence : ℚ
  has_sufficient_evidence : Bool
deriving DecidableEq

/-! ## String helpers shared by the grader and the router

Python's `str.split()`, `str.strip()`, substring containment and `re` word
characters, specialised to what the source uses. -/

/-- Characters Python treats as whitespace for `split` / `strip`. -/
def isPySpace (c : Char) : Bool :=
  c = ' ' || c = '\t' || c = '\n' || c = '\x0d' || c = '\x0b' || c = '\x0c'

/-- Auxiliary accumulator for `splitWs`. -/
def splitWsAux : List Char → List Char → List (List Char)
  | [], acc => if acc.isEmpty then [] else [acc.reverse]
  | c :: cs, acc =>
    if isPySpace c then
      if acc.isEmpty then splitWsAux cs [] else acc.reverse :: splitWsAux cs []
    else splitWsAux cs (c :: acc)

/-- Python `str.split()`: split on runs of whitespace, dropping empties. -/
def splitWs (s : List Char) : List (List Char) := splitWsAux s []

/-- Boolean list-prefix test on characters. -/
def charsPrefix : List Char → List Char → Bool
  | [], _ => true
  | _ :: _, [] => false
  | a :: as, b :: bs => a = b && charsPrefix as bs

/-- Python `needle in haystack` substring containment. -/
def containsSub (n : List Char) : List Char → Bool
  | [] => n.isEmpty
  | c :: cs => charsPrefix n (c :: cs) || containsSub n cs

/-- Python `str.strip()` on the character list. -/
def pyStripChars (s : List Char) : List Char :=
  ((s.dropWhile isPySpace).reverse.dropWhile isPySpace).reverse

/-- Python `str.strip()`. -/
def pyStrip (s : String) : String := String.mk (pyStripChars s.data)

/-! ## Relevance grader (`app/agent/nodes/grade.py`) -/

/-- Minimum content length accepted by the grader. -/
def MIN_CONTENT_LENGTH : Nat := 50

/-- Stop words skipped by `_keyword_match_score`. -/
def stopWords : List (List Char) :=
  ["the", "a", "an", "is", "are", "was", "were", "be", "been",
   "what", "how", "when", "where", "which", "who", "why",
   "for", "of", "to", "in", "on", "at", "by", "with", "and", "or"].map String.data

/-- Keyword match score between query and content
(`_keyword_match_score` in `grade.py`). -/
def keywordMatchScore (query content : String) : ℚ :=
  if query.data.isEmpty || content.data.isEmpty then 0
  else
    let queryLower := query.data.map Char.toLower
    let contentLower := content.data.map Char.toLower
    let queryWords := (splitWs queryLower).filter
      (fun w => decide (2 < w.length) && !(stopWords.contains w))
    if queryWords.isEmpty then 1/2
    else
      ((queryWords.filter (fun w => containsSub w contentLower)).length : ℚ) /
        (queryWords.length : ℚ)

/-- Render a nonnegative rational with two decimal places, the model of
Python's `f"{x:.2f}"` on the grader's scores. -/
def fmtTwoDec (q : ℚ) : String :=
  let n : ℤ := ⌊q * 100 + 1/2⌋
  let frac : ℕ := (n % 100).toNat
  toString (n / 100) ++ "." ++ (if frac < 10 then "0" else "") ++ toString frac

/-- Grade a chunk using heuristics only (`_heuristic_grade` in `grade.py`). -/
def heuristicGrade (query : String) (chunk : RetrievedChunk) : GradeResult :=
  if chunk.content.length < MIN_CONTENT_LENGTH then
    { is_relevant := false, reason := "Content too short", confidence := 9/10 }
  else
    let keywordScore := keywordMatchScore query chunk.content
    let retrievalScore := max (max chunk.score_vec chunk.score_fts) chunk.rrf_rank
    let combinedScore := keywordScore * (6/10) + retrievalScore * (4/10)
    let isRel :=
      decide (combinedScore > 1/10) || decide (keywordScore > 1/5) ||
        decide (retrievalScore > 3/10)
    let isRel :=
      if decide (chunk.score_vec > 0) || decide (chunk.score_fts > 0) then true else isRel
    { is_relevant := isRel,
      reason := "Keyword: " ++ fmtTwoDec keywordScore ++ ", Retrieval: " ++
        fmtTwoDec retrievalScore,
      confidence := min (combinedScore + 3/10) 1 }

/-! ## Query router (`app/agent/nodes/router.py`)

The two code patterns are `CODE_PATTERN = \b(\d+(?:\.\d+)+)\b` and
`SECTION_PATTERN = \b(?:section|bölüm|madde)\s*(\d+(?:\.\d+)*)\b` (ignoring
case); the metadata patterns are `R.G.`, `A.E.`, `EK` and date patterns.
They are embedded as deterministic scanners that reproduce Python `re`
leftmost search with greedy quantifiers and backtracking, specialised to
these fixed patterns. -/

/-- Word characters of `re` (`\w`), modelled as ASCII alphanumerics,
underscore, and the Turkish letters used by the repository's queries. -/
def isWordChar (c : Char) : Bool :=
  c.isAlphanum || c = '_' ||
    ['ç', 'ğ', 'ı', 'ö', 'ş', 'ü', 'Ç', 'Ğ', 'İ', 'Ö', 'Ş', 'Ü'].contains c

/-- Case folding for `re.IGNORECASE`, extended to the Turkish letters of the
patterns. -/
def pyToLower (c : Char) : Char :=
  if c = 'Ç' then 'ç' else if c = 'Ğ' then 'ğ' else if c = 'İ' then 'i'
  else if c = 'Ö' then 'ö' else if c = 'Ş' then 'ş' else if c = 'Ü' then 'ü'
  else c.toLower

/-- Maximal digit prefix (`\d+` greedy). -/
def takeDigits : List Char → List Char
  | [] => []
  | c :: cs => if c.isDigit then c :: takeDigits cs else []

/-- Rest after the maximal digit prefix. -/
def dropDigits : List Char → List Char
  | [] => []
  | c :: cs => if c.isDigit then dropDigits cs else c :: cs

theorem dropDigits_length_le (s : List Char) : (dropDigits s).length ≤ s.length := by
  induction s with
  | nil => simp [dropDigits]
  | cons c cs ih =>
    simp only [dropDigits]
    split
    · exact Nat.le_succ_of_le ih
    · exact Nat.le_refl _

/-- Fuel-bounded greedy parse of `(?:\.\d+)*`; the fuel makes the recursion
structural, so concrete runs reduce in the kernel.  Each step consumes at
least the leading dot, so the input length is always enough fuel. -/
def parseGroupsF : Nat → List Char → List (List Char) × List Char
  | 0, s => ([], s)
  | fuel + 1, s =>
    match s with
    | '.' :: cs =>
      let d := takeDigits cs
      if d.isEmpty then ([], s)
      else
        let (gs, r) := parseGroupsF fuel (dropDigits cs)
        (('.' :: d) :: gs, r)
    | _ => ([], s)

/-- Greedy parse of `(?:\.\d+)*`: returns the matched groups (each with its
leading dot) and the unconsumed rest. -/
def parseGroups (s : List Char) : List (List Char) × List Char :=
  parseGroupsF s.length s

theorem parseGroupsF_succ_dot (fuel : Nat) (cs : List Char) :
    parseGroupsF (fuel + 1) ('.' :: cs) =
      if (takeDigits cs).isEmpty then ([], '.' :: cs)
      else (('.' :: takeDigits cs) :: (parseGroupsF fuel (dropDigits cs)).1,
            (parseGroupsF fuel (dropDigits cs)).2) := rfl

theorem parseGroupsF_succ_other (fuel : Nat) {c : Char} (cs : List Char)
    (h : ¬ c = '.') : parseGroupsF (fuel + 1) (c :: cs) = ([], c :: cs) := by
  simp only [parseGroupsF]
  split
  · rename_i cs2 heq
    injection heq with h1 _
    exact absurd h1 h
  · rfl

theorem parseGroupsF_fuel :
    ∀ (m n : Nat) (s : List Char), s.length ≤ m → s.length ≤ n →
      parseGroupsF m s = parseGroupsF n s := by
  intro m
  induction m with
  | zero =>
    intro n s hm _
    have : s = [] := List.length_eq_zero.mp (Nat.le_zero.mp hm)
    subst this
    cases n <;> rfl
  | succ m2 ih =>
    intro n s hm hn
    cases n with
    | zero =>
      have : s = [] := List.length_eq_zero.mp (Nat.le_zero.mp hn)
      subst this
      rfl
    | succ n2 =>
      match s with
      | [] => rfl
      | '.' :: cs =>
        show parseGroupsF (m2 + 1) ('.' :: cs) = parseGroupsF (n2 + 1) ('.' :: cs)
        simp only [parseGroupsF]
        have hlen : (dropDigits cs).length ≤ cs.length := dropDigits_length_le cs
        have h1 : (dropDigits cs).length ≤ m2 := by
          simp only [List.length_cons] at hm
          omega
        have h2 : (dropDigits cs).length ≤ n2 := by
          simp only [List.length_cons] at hn
          omega
        rw [ih n2 (dropDigits cs) h1 h2]
      | c :: cs =>
        by_cases hc : c = '.'
        · subst hc
          show parseGroupsF (m2 + 1) ('.' :: cs) = parseGroupsF (n2 + 1) ('.' :: cs)
          simp only [parseGroupsF]
          have h1 : (dropDigits cs).length ≤ m2 := by
            simp only [List.length_cons] at hm
            have := dropDigits_length_le cs
            omega
          have h2 : (dropDigits cs).length ≤ n2 := by
            simp only [List.length_cons] at hn
            have := dropDigits_length_le cs
            omega
          rw [ih n2 (dropDigits cs) h1 h2]
        · rw [parseGroupsF_succ_other m2 cs hc, parseGroupsF_succ_other n2 cs hc]

/-- Word boundary `\b` between a word character and the rest of the input. -/
def boundaryAfter : List Char → Bool
  | [] => true
  | c :: _ => !isWordChar c

/-- Attempt `(\d+(?:\.\d+)+)\b` at the current position (the leading `\b` is
checked by the scanner).  When the greedy match is followed by a word
character the engine backtracks by dropping the last `(?:\.\d+)` group, after
which the boundary sits before that group's dot; dropping below one group is
refused by the `+`. -/
def tryCodeAt (s : List Char) : Option (List Char) :=
  let d := takeDigits s
  if d.isEmpty then none
  else
    let (gs, r) := parseGroups (dropDigits s)
    if gs.isEmpty then none
    else if boundaryAfter r then some (d ++ gs.flatten)
    else if 2 ≤ gs.length then some (d ++ gs.dropLast.flatten)
    else none

/-- Scan of `re.search` for `CODE_PATTERN`: try every position whose
predecessor is not a word character (the pattern starts with `\b\d`). -/
def scanCode : List Char → Bool → Option (List Char)
  | [], _ => none
  | c :: cs, prevWord =>
    if prevWord then scanCode cs (isWordChar c)
    else
      match tryCodeAt (c :: cs) with
      | some t => some t
      | none => scanCode cs (isWordChar c)

/-- Leftmost match of `CODE_PATTERN` (capture group 1). -/
def codeSearch (s : List Char) : Option (List Char) := scanCode s false

/-- Case-insensitive literal keyword match; returns the rest on success. -/
def matchKw : List Char → List Char → Option (List Char)
  | [], rest => some rest
  | _ :: _, [] => none
  | k :: ks, c :: cs => if pyToLower c = k then matchKw ks cs else none

/-- Alternation `(?:section|bölüm|madde)` in source order. -/
def tryKeyword (s : List Char) : Option (List Char) :=
  match matchKw "section".data s with
  | some r => some r
  | none =>
    match matchKw "bölüm".data s with
    | some r => some r
    | none => matchKw "madde".data s

/-- Attempt `(?:section|bölüm|madde)\s*(\d+(?:\.\d+)*)\b` at the current
position; returns capture group 1.  With `*` the token may have no dotted
group at all, and the boundary backtrack may drop the last group. -/
def trySectionAt (s : List Char) : Option (List Char) :=
  match tryKeyword s with
  | none => none
  | some rest =>
    let rest2 := rest.dropWhile isPySpace
    let d := takeDigits rest2
    if d.isEmpty then none
    else
      let (gs, r) := parseGroups (dropDigits rest2)
      if boundaryAfter r then some (d ++ gs.flatten)
      else if 1 ≤ gs.length then some (d ++ gs.dropLast.flatten)
      else none

/-- Scan of `re.search` for `SECTION_PATTERN`. -/
def scanSection : List Char → Bool → Option (List Char)
  | [], _ => none
  | c :: cs, prevWord =>
    if prevWord then scanSection cs (isWordChar c)
    else
      match trySectionAt (c :: cs) with
      | some t => some t
      | none => scanSection cs (isWordChar c)

/-- Leftmost match of `SECTION_PATTERN` (capture group 1). -/
def sectionSearch (s : List Char) : Option (List Char) := scanSection s false

/-- Detect a regulation code pattern (`_detect_code` in `router.py`):
the section pattern first, then the standalone code pattern. -/
def detectCode (q : String) : Option String :=
  match sectionSearch q.data with
  | some t => some (String.mk t)
  | none => (codeSearch q.data).map String.mk

/-- Attempt `R\.?G\.?\s*(\d+)\b` (resp. `A\.?E\.?\s*(\d+)\b`) at the current
position, given the two keyword letters; returns the whole match
(`group(0)`).  The optional dots are greedy; skipping a present dot can
never succeed, so no backtracking is needed. -/
def tryLetterPairAt (l1 l2 : Char) (s : List Char) : Option (List Char) :=
  match s with
  | [] => none
  | c :: rest =>
    if pyToLower c = l1 then
      let (dot1, rest1) := match rest with
        | '.' :: t => (['.'], t)
        | _ => (([] : List Char), rest)
      match rest1 with
      | [] => none
      | g :: rest2 =>
        if pyToLower g = l2 then
          let (dot2, rest3) := match rest2 with
            | '.' :: t => (['.'], t)
            | _ => (([] : List Char), rest2)
          let sp := rest3.takeWhile isPySpace
          let rest4 := rest3.dropWhile isPySpace
          let d := takeDigits rest4
          if d.isEmpty then none
          else if boundaryAfter (dropDigits rest4) then
            some (c :: dot1 ++ g :: dot2 ++ sp ++ d)
          else none
        else none
    else none

/-- Roman-numeral characters of the `EK` pattern, case-insensitively. -/
def isRomanChar (c : Char) : Bool :=
  ['i', 'v', 'x', 'l', 'c', 'd', 'm'].contains (pyToLower c)

/-- Attempt `EK\s*([IVXLCDM]+)\b` at the current position; returns the whole
match (`group(0)`). -/
def tryEkAt (s : List Char) : Option (List Char) :=
  match s with
  | e :: k :: rest =>
    if pyToLower e = 'e' && pyToLower k = 'k' then
      let sp := rest.takeWhile isPySpace
      let rest2 := rest.dropWhile isPySpace
      let roman := rest2.takeWhile isRomanChar
      if roman.isEmpty then none
      else if boundaryAfter (rest2.dropWhile isRomanChar) then
        some (e :: k :: sp ++ roman)
      else none
    else none
  | _ => none

/-- Take exactly `n` digits, failing otherwise. -/
def takeExactDigits : Nat → List Char → Option (List Char × List Char)
  | 0, s => some ([], s)
  | _ + 1, [] => none
  | n + 1, c :: cs =>
    if c.isDigit then
      (takeExactDigits n cs).map (fun p => (c :: p.1, p.2))
    else none

/-- Attempt `\d{2}\.\d{2}\.\d{4}\b` at the current position; returns the
whole match. -/
def tryDateAt (s : List Char) : Option (List Char) :=
  match takeExactDigits 2 s with
  | none => none
  | some (d1, r1) =>
    match r1 with
    | '.' :: r1' =>
      match takeExactDigits 2 r1' with
      | none => none
      | some (d2, r2) =>
        match r2 with
        | '.' :: r2' =>
          match takeExactDigits 4 r2' with
          | none => none
          | some (d3, r3) =>
            if boundaryAfter r3 then some (d1 ++ '.' :: d2 ++ '.' :: d3) else none
        | _ => none
    | _ => none

/-- Generic `re.search` scan for a pattern starting with `\b` followed by a
word character: try every position whose predecessor is not a word
character. -/
def scanFor (tryAt : List Char → Option (List Char)) :
    List Char → Bool → Option (List Char)
  | [], _ => none
  | c :: cs, prevWord =>
    if prevWord then scanFor tryAt cs (isWordChar c)
    else
      match tryAt (c :: cs) with
      | some t => some t
      | none => scanFor tryAt cs (isWordChar c)

/-- Detect metadata patterns (`_detect_metadata` in `router.py`), in the fixed
priority order `R.G.`, `A.E.`, `EK`, date; the reported value is
`f"{label} {match.group(0)}"`. -/
def detectMetadata (q : String) : Option String :=
  match scanFor (tryLetterPairAt 'r' 'g') q.data false with
  | some m => some ("R.G. " ++ String.mk m)
  | none =>
    match scanFor (tryLetterPairAt 'a' 'e') q.data false with
    | some m => some ("A.E. " ++ String.mk m)
    | none =>
      match scanFor tryEkAt q.data false with
      | some m => some ("EK " ++ String.mk m)
      | none =>
        match scanFor tryDateAt q.data false with
        | some m => some ("date " ++ String.mk m)
        | none => none

/-! ## Run state and the router node

The LangGraph state is a Python `dict`; the workflow threads the keys of
`run_agent`'s `initial_state` through the four nodes, each node returning
the keys it updates.  The dict is modelled as a record and a node as a
record update. -/

/-- The mutable aggregate threaded through the workflow (the dict built in
`run_agent`, typed as in `AgentState`). -/
structure RunState where
  query : String
  thread_id : Option String := none
  query_type : QueryType := .VECTOR
  router_result : Option RouterResult := none
  retrieval : List RetrievedChunk := []
  graded_chunks : List (RetrievedChunk × GradeResult) := []
  relevant_chunks : List RetrievedChunk := []
  query_history : List String := []
  search_iterations : Nat := 0
  max_iterations : Nat := 3
  generation : Option GenerationResult := none
  error : Option String := none

/-- Router node (`route_query` in `router.py`). -/
def routeQuery (st : RunState) : RunState :=
  let q := st.query
  let qh :=
    if q ≠ "" ∧ q ∉ st.query_history then st.query_history ++ [q]
    else st.query_history
  match detectCode q with
  | some c =>
    { st with
      query_type := .CODE,
      router_result := some
        { query_type := .CODE, extracted_code := some c, extracted_metadata := none,
          reasoning := "Detected regulation code pattern: " ++ c },
      query_history := qh }
  | none =>
    match detectMetadata q with
    | some m =>
      { st with
        query_type := .METADATA,
        router_result := some
          { query_type := .METADATA, extracted_code := none,
            extracted_metadata := some m,
            reasoning := "Detected metadata pattern: " ++ m },
        query_history := qh }
    | none =>
      { st with
        query_type := .VECTOR,
        router_result := some
          { query_type := .VECTOR, extracted_code := none, extracted_metadata := none,
            reasoning := "Natural language query - using semantic search" },
        query_history := qh }

/-! ## Retrieval engine (`app/agent/nodes/retrieve.py`)

The SQL document store and the embedding service are external collaborators;
they are modelled as an abstract interface whose fallible operations return
`Option` (`none` is a raised exception).  `_search_all_chunks` runs the plain
`SELECT ... ORDER BY d.code, c.ordinal LIMIT 12` over the corpus; its rows
are the interface's `corpus` field, given in that order, and the query
itself is total (the claim's failure model covers the embedding, vector and
full-text strategies). -/

/-- Search configuration constants of `retrieve.py`. -/
def TOP_K_FINAL : Nat := 12

/-- RRF constant of `retrieve.py`. -/
def RRF_K : Nat := 60

/-- A row of `reg_doc_chunk` joined with `reg_doc`, as every search query
selects it. -/
structure StoreRow where
  chunk_id : Nat
  reg_doc_id : Nat
  reg_code : String
  url : Option String := none
  heading : Option String := none
  content : String
deriving DecidableEq

/-- The external document store.  `corpus` is the row list of the unfiltered
`_search_all_chunks` query in its `ORDER BY d.code, c.ordinal` order;
`byCode`, `vector` and `fts` are the three filtered queries, `none`
modelling a raised database error.  `vector` rows carry the pgvector
cosine distance, `fts` rows the `ts_rank` statistic. -/
structure Store where
  corpus : List StoreRow
  byCode : String → Option (List StoreRow)
  vector : List ℚ → Option (List (StoreRow × ℚ))
  fts : String → Option (List (StoreRow × ℚ))

/-- Direct lookup by regulation code (`_search_by_code`): every row is
returned with maximal scores. -/
def searchByCodeRows (rows : List StoreRow) : List RetrievedChunk :=
  rows.map fun r =>
    { chunk_id := r.chunk_id, reg_doc_id := r.reg_doc_id, reg_code := r.reg_code,
      url := r.url, heading := r.heading, content := r.content,
      score_vec := 1, score_fts := 1, rrf_rank := 1 }

/-- Vector similarity search (`_search_vector`): distance `d` becomes the
similarity `1 / (1 + d)` (with the Python falsy check sending distance `0`
to similarity `0`), and position `i` the rank score `1 / (RRF_K + i + 1)`. -/
def searchVector (store : Store) (emb : List ℚ) : Option (List RetrievedChunk) :=
  (store.vector emb).map fun rows =>
    rows.enum.map fun p =>
      { chunk_id := p.2.1.chunk_id, reg_doc_id := p.2.1.reg_doc_id,
        reg_code := p.2.1.reg_code, url := p.2.1.url, heading := p.2.1.heading,
        content := p.2.1.content,
        score_vec := if p.2.2 = (0 : ℚ) then 0 else 1 / (1 + p.2.2),
        score_fts := 0,
        rrf_rank := 1 / ((RRF_K : ℚ) + p.1 + 1) }

/-- Full-text search (`_search_text_only`): a blank query short-circuits to
an empty list; otherwise each row's `ts_rank` is kept (a falsy rank of `0`
defaulting to `1/2`). -/
def searchTextOnly (store : Store) (q : String) : Option (List RetrievedChunk) :=
  if q = "" ∨ pyStrip q = "" then some []
  else
    (store.fts q).map fun rows =>
      rows.map fun p =>
        { chunk_id := p.1.chunk_id, reg_doc_id := p.1.reg_doc_id,
          reg_code := p.1.reg_code, url := p.1.url, heading := p.1.heading,
          content := p.1.content,
          score_vec := 0,
          score_fts := if p.2 = (0 : ℚ) then 1/2 else p.2,
          rrf_rank := if p.2 = (0 : ℚ) then 1/2 else p.2 }

/-- Last index of a chunk id in a result list: the rank the Python dict
comprehension `{c.chunk_id: (i, c)}` records (a later duplicate
overwrites an earlier one). -/
def lastIdxOf (l : List RetrievedChunk) (id : Nat) : Option Nat :=
  lastIdxOfAux l id 0
where
  /-- Scan with a running index, preferring a match further right. -/
  lastIdxOfAux : List RetrievedChunk → Nat → Nat → Option Nat
    | [], _, _ => none
    | c :: cs, id, k =>
      match lastIdxOfAux cs id (k + 1) with
      | some j => some j
      | none => if c.chunk_id = id then some k else none

/-- Last chunk with a given id, the value component of the same dict. -/
def lookupLast (l : List RetrievedChunk) (id : Nat) : Option RetrievedChunk :=
  match l with
  | [] => none
  | c :: cs =>
    match lookupLast cs id with
    | some d => some d
    | none => if c.chunk_id = id then some c else none

/-- One RRF summand: `1/(RRF_K + rank + 1)` for a rank recorded in the dict
and below the 999 sentinel, `0` otherwise. -/
def rrfTerm : Option Nat → ℚ
  | some i => if i < 999 then 1 / ((RRF_K : ℚ) + i + 1) else 0
  | none => 0

/-- Combined RRF score of a chunk id over the two result lists. -/
def rrfScoreAt (vec fts : List RetrievedChunk) (id : Nat) : ℚ :=
  rrfTerm (lastIdxOf vec id) + rrfTerm (lastIdxOf fts id)

/-- Union of the chunk ids of the two result lists.  Python computes
`set(vec) | set(fts)`, whose iteration order is arbitrary but
deterministic; it is modelled in first-insertion order. -/
def unionIds (vec fts : List RetrievedChunk) : List Nat :=
  (vec.map (fun c => c.chunk_id) ++ fts.map (fun c => c.chunk_id)).dedup

/-- The scored union the fusion loop of `_search_hybrid` builds: each id is
paired with its RRF score and its chunk data, taken from whichever search
found it (the vector result wins, as `a or b` does on truthy objects). -/
def scoredUnion (vec fts : List RetrievedChunk) : List (ℚ × RetrievedChunk) :=
  (unionIds vec fts).filterMap fun id =>
    (match lookupLast vec id with
      | some c => some c
      | none => lookupLast fts id).map
      fun c => (rrfScoreAt vec fts id, c)

/-- Stable insertion into a descending-sorted list: a new element goes after
every element of score greater than or equal to its own. -/
def insertDesc (x : ℚ × RetrievedChunk) :
    List (ℚ × RetrievedChunk) → List (ℚ × RetrievedChunk)
  | [] => [x]
  | y :: ys => if x.1 ≤ y.1 then y :: insertDesc x ys else x :: y :: ys

/-- Stable sort by score descending, the model of Python's
`list.sort(key=lambda x: x[0], reverse=True)`. -/
def sortDescStable (l : List (ℚ × RetrievedChunk)) : List (ℚ × RetrievedChunk) :=
  l.foldl (fun acc x => insertDesc x acc) []

/-- RRF fusion of the two result lists (the pure tail of `_search_hybrid`):
score the union, sort by score descending, truncate to `TOP_K_FINAL` and
record the fusion score on each output chunk. -/
def rrfFuse (vec fts : List RetrievedChunk) : List RetrievedChunk :=
  ((sortDescStable (scoredUnion vec fts)).take TOP_K_FINAL).map
    fun p => { p.2 with rrf_rank := p.1 }

/-- Hybrid search (`_search_hybrid`): run the vector and full-text searches,
then fuse; an exception from either propagates. -/
def searchHybrid (store : Store) (q : String) (emb : List ℚ) :
    Option (List RetrievedChunk) :=
  (searchVector store emb).bind fun vec =>
    (searchTextOnly store q).map fun fts => rrfFuse vec fts

/-- Ultimate fallback (`_search_all_chunks`): the unfiltered corpus sample,
capped at `TOP_K_FINAL`, with zero search scores and `rrf_rank = 0.5`. -/
def searchAllChunks (store : Store) : List RetrievedChunk :=
  (store.corpus.take TOP_K_FINAL).map fun r =>
    { chunk_id := r.chunk_id, reg_doc_id := r.reg_doc_id, reg_code := r.reg_code,
      url := r.url, heading := r.heading, content := r.content,
      score_vec := 0, score_fts := 0, rrf_rank := 1/2 }

/-- The truthy extracted code of the routing decision, as the condition
`query_type == CODE and router_result and router_result.extracted_code`
evaluates it (an empty string is falsy). -/
def truthyCode : Option RouterResult → Option String
  | none => none
  | some r =>
    match r.extracted_code with
    | none => none
    | some c => if c = "" then none else some c

/-- Chunk retrieval of the retrieve node (`retrieve_documents`): dispatch on
the routing decision; hybrid failure falls back to full-text-only search;
any empty or failed strategy falls back to the unfiltered corpus sample.
The outer `except` also retries the corpus sample; with the corpus sample
total that second handler's empty result is unreachable, so the function
is total (`retrieve` never raises to the caller). -/
def retrievePrimary (store : Store) (embedSvc : String → Option (List ℚ))
    (q : String) (qt : QueryType) (rr : Option RouterResult) :
    Option (List RetrievedChunk) :=
  match (if qt = QueryType.CODE then truthyCode rr else none) with
  | some code => (store.byCode code).map searchByCodeRows
  | none =>
    if q ≠ "" ∧ pyStrip q ≠ "" then
      match (embedSvc q).bind fun e => searchHybrid store q e with
      | some chunks => some chunks
      | none => searchTextOnly store q
    else some []

/-- Second half of `retrieve_documents`: an empty or raised primary strategy
falls back to the unfiltered corpus sample. -/
def retrieveChunks (store : Store) (embedSvc : String → Option (List ℚ))
    (q : String) (qt : QueryType) (rr : Option RouterResult) :
    List RetrievedChunk :=
  match retrievePrimary store embedSvc q qt rr with
  | some chunks => if chunks.isEmpty then searchAllChunks store else chunks
  | none => searchAllChunks store

/-- Retrieve node (`retrieve_documents`): stores the chunks, preserves the
query and increments `search_iterations`. -/
def retrieveDocuments (store : Store) (embedSvc : String → Option (List ℚ))
    (st : RunState) : RunState :=
  { st with
    retrieval := retrieveChunks store embedSvc st.query st.query_type st.router_result,
    search_iterations := st.search_iterations + 1 }

/-! ## Grading node (`grade_documents` in `grade.py`) -/

/-- Grading node: grade every retrieved chunk, keep the relevant ones in
order; preserves the query. -/
def gradeDocuments (st : RunState) : RunState :=
  if st.retrieval.isEmpty then
    { st with graded_chunks := [], relevant_chunks := [] }
  else
    { st with
      graded_chunks := st.retrieval.map fun c => (c, heuristicGrade st.query c),
      relevant_chunks :=
        st.retrieval.filter fun c => (heuristicGrade st.query c).is_relevant }

/-! ## Answer stage (`app/agent/nodes/generate.py`)

The completion service is modelled as `llm : String → Except String String`;
`.error e` is a raised exception whose `str(e)` is `e`. -/

/-- The fixed `INSUFFICIENT_EVIDENCE_TEMPLATE` of `app/agent/config.py`. -/
def insufficientEvidenceTemplate (queryTypeStr queries codes findings : String) :
    String :=
  "I searched the EMU regulations database but could not find sufficient information to answer your question.\n\n**Search attempted:**\n- Query type: " ++
    queryTypeStr ++ "\n- Queries tried: " ++ queries ++
    "\n- Regulation codes considered: " ++ codes ++ "\n\n**What I found:**\n" ++
    findings ++
    "\n\nPlease try rephrasing your question or ask about a specific regulation section if you know the code (e.g., \"What does section 5.1.2 say?\")."

/-- The findings summary of `_build_insufficient_response`, distinguishing an
empty retrieval from a retrieval none of whose chunks was relevant. -/
def buildFindings (retrieval : List RetrievedChunk) : String :=
  if retrieval.isEmpty then
    "No matching documents were found in the database."
  else
    "Found " ++ toString retrieval.length ++
      " document chunks, but none were relevant to your specific question."

/-- Response when insufficient evidence is found
(`_build_insufficient_response`).  `list(set(...))` over the codes is
modelled in first-insertion order. -/
def buildInsufficientResponse (st : RunState) : GenerationResult :=
  let codes := (st.retrieval.map fun c => c.reg_code).dedup
  let queries :=
    String.intercalate ", " ((st.query_history.take 3).map fun q => "\"" ++ q ++ "\"")
  let codesStr := if codes.isEmpty then "None" else String.intercalate ", " (codes.take 5)
  { answer := insufficientEvidenceTemplate st.query_type.value queries codesStr
      (buildFindings st.retrieval),
    citations := [],
    confidence := 0,
    has_sufficient_evidence := false }

/-- Context string from the chunks used (`_build_context`): each content
truncated to 2000 characters. -/
def buildContext (chunks : List RetrievedChunk) : String :=
  String.intercalate "\n---\n" (chunks.enum.map fun p =>
    "[Document " ++ toString (p.1 + 1) ++ "] Code: " ++ p.2.reg_code ++
      ", Chunk ID: " ++ toString p.2.chunk_id ++ "\nHeading: " ++
      (match p.2.heading with
        | some h => if h = "" then "N/A" else h
        | none => "N/A") ++
      "\nContent: " ++ p.2.content.take 2000 ++ "\n")

/-- The user prompt assembled by `generate_answer`. -/
def generatePrompt (query context : String) : String :=
  "Question: " ++ query ++ "\n\nRelevant Regulation Documents:\n" ++ context ++
    "\n\nAnswer the question based ONLY on the documents above.\nFor each claim, cite the source like this: [Source: reg_code, chunk_id]\nIf the documents don't fully answer the question, say so."

/-- Generation node (`generate_answer`): prefer the relevant chunks, fall
back to the raw retrieval; with no chunks at all produce the
insufficient-evidence response; on completion-service failure produce an
error answer with empty citations and zero confidence and record the
error. -/
def generateAnswer (llm : String → Except String String) (st : RunState) :
    RunState :=
  let chunksToUse := if st.relevant_chunks.isEmpty then st.retrieval
    else st.relevant_chunks
  if chunksToUse.isEmpty then
    { st with generation := some (buildInsufficientResponse st) }
  else
    let context := buildContext (chunksToUse.take 8)
    match llm (generatePrompt st.query context) with
    | Except.ok answer =>
      { st with generation := some (
        { answer := answer,
          citations := (chunksToUse.take 8).map fun c =>
            { reg_code := c.reg_code, url := c.url, chunk_id := c.chunk_id,
              excerpt := if 200 < c.content.length then c.content.take 200 ++ "..."
                else c.content },
          confidence := if 3 ≤ chunksToUse.length then 8/10 else 6/10,
          has_sufficient_evidence := true } : GenerationResult) }
    | Except.error e =>
      { st with
        generation := some
          { answer := "I encountered an error generating the response: " ++ e,
            citations := [],
            confidence := 0,
            has_sufficient_evidence := false },
        error := some e }

/-! ## Workflow graph (`app/agent/graph.py`)

`create_graph` wires a linear `StateGraph`: entry point `route`, edges
`route → retrieve → grade → generate → END`, and no conditional edge (after
grading the flow always proceeds to `generate`).  The compiled graph's
`ainvoke` is modelled as fuel-bounded edge following. -/

/-- The four workflow nodes. -/
inductive GraphNode where
  | route
  | retrieve
  | grade
  | generate
deriving DecidableEq

/-- The edge relation of `create_graph`; `none` is `END`. -/
def graphEdge : GraphNode → Option GraphNode
  | .route => some .retrieve
  | .retrieve => some .grade
  | .grade => some .generate
  | .generate => none

/-- Entry point set by `workflow.set_entry_point("route")`. -/
def entryPoint : GraphNode := GraphNode.route

/-- The external collaborators injected into a run. -/
structure Oracles where
  store : Store
  embedSvc : String → Option (List ℚ)
  llm : String → Except String String

/-- Execute one node on the state. -/
def runNode (o : Oracles) : GraphNode → RunState → RunState
  | .route => routeQuery
  | .retrieve => retrieveDocuments o.store o.embedSvc
  | .grade => gradeDocuments
  | .generate => generateAnswer o.llm

/-- Follow the graph from a node, collecting the trace of executed nodes;
the fuel bounds the number of steps (LangGraph's recursion limit). -/
def runFrom (o : Oracles) : Nat → GraphNode → RunState → List GraphNode × RunState
  | 0, _, st => ([], st)
  | fuel + 1, n, st =>
    let st2 := runNode o n st
    match graphEdge n with
    | none => ([n], st2)
    | some n2 =>
      let r := runFrom o fuel n2 st2
      (n :: r.1, r.2)

/-- The initial state dict of `run_agent`. -/
def initialState (q : String) (thread : Option String) : RunState :=
  { query := q, thread_id := thread, query_history := [q], retrieval := [],
    graded_chunks := [], relevant_chunks := [], search_iterations := 0,
    max_iterations := 1, generation := none, error := none }

/-- Run the agent on a query (`run_agent`): compile the graph and invoke it
on the initial state, returning the node trace and the final state. -/
def runAgent (o : Oracles) (q : String) (thread : Option String) :
    List GraphNode × RunState :=
  runFrom o 8 entryPoint (initialState q thread)

/-! ## Helper lemmas about the grader -/

theorem keywordMatchScore_nonneg (query content : String) :
    0 ≤ keywordMatchScore query content := by
  unfold keywordMatchScore
  split
  · exact le_refl 0
  · simp only
    split
    · norm_num
    · positivity

/-- Concrete chunks used by counterexamples and witnesses. -/
def chunkShort : RetrievedChunk :=
  { chunk_id := 7, reg_doc_id := 3, reg_code := "5.1", url := none,
    heading := none, content := "short text", score_vec := 3/5,
    score_fts := 0, rrf_rank := 0 }

/-- A chunk long enough to pass the grader's length gate. -/
def chunkLong : RetrievedChunk :=
  { chunk_id := 8, reg_doc_id := 3, reg_code := "5.1", url := none,
    heading := none,
    content := "This chunk content is certainly longer than fifty characters in total.",
    score_vec := 3/5, score_fts := 0, rrf_rank := 0 }

theorem heuristicGrade_long_relevant (query : String) (chunk : RetrievedChunk)
    (hlen : MIN_CONTENT_LENGTH ≤ chunk.content.length)
    (hs : 0 < chunk.score_vec ∨ 0 < chunk.score_fts) :
    (heuristicGrade query chunk).is_relevant = true := by
  unfold heuristicGrade
  rw [if_neg (by omega)]
  rcases hs with h | h <;> simp [h]

theorem heuristicGrade_long_confidence (query : String) (chunk : RetrievedChunk)
    (hlen : MIN_CONTENT_LENGTH ≤ chunk.content.length) :
    (heuristicGrade query chunk).confidence =
      min (keywordMatchScore query chunk.content * (6/10) +
        max (max chunk.score_vec chunk.score_fts) chunk.rrf_rank * (4/10) + 3/10) 1 := by
  unfold heuristicGrade
  rw [if_neg (by omega)]

/-! ## Claims C5, C6 and C10 -/

/-- Claim C5, counterexample: a chunk of fewer than 50 characters with a
nonzero vector score is graded irrelevant, so a nonzero vector or
full-text score does not always make the grader mark a chunk relevant. -/
theorem grade_nonzero_counterexample :
    0 < chunkShort.score_vec ∧
      (heuristicGrade "any query" chunkShort).is_relevant = false := by
  constructor
  · norm_num [chunkShort]
  · rfl

/-- Claim C5, amended: for every query, every chunk whose content passes the
50-character length gate and whose vector score or full-text score is
nonzero is marked relevant, regardless of the keyword-overlap score. -/
theorem grade_trusted_retriever (query : String) (chunk : RetrievedChunk)
    (hlen : MIN_CONTENT_LENGTH ≤ chunk.content.length)
    (hs : 0 < chunk.score_vec ∨ 0 < chunk.score_fts) :
    (heuristicGrade query chunk).is_relevant = true :=
  heuristicGrade_long_relevant query chunk hlen hs

/-- Witness for `grade_trusted_retriever` at a concrete chunk. -/
theorem grade_trusted_retriever_witness :
    MIN_CONTENT_LENGTH ≤ chunkLong.content.length ∧
      (heuristicGrade "exam rules" chunkLong).is_relevant = true :=
  ⟨by decide,
    grade_trusted_retriever "exam rules" chunkLong (by decide) (Or.inl (by norm_num [chunkLong]))⟩

/-- Claim C6, counterexample: the grader's reason string for a short chunk is
"Content too short" with a capital C, not "content too short" as the claim
states it. -/
theorem grade_short_reason_counterexample :
    (heuristicGrade "any query" chunkShort).is_relevant = false ∧
      (heuristicGrade "any query" chunkShort).confidence = 9/10 ∧
      (heuristicGrade "any query" chunkShort).reason = "Content too short" ∧
      (heuristicGrade "any query" chunkShort).reason ≠ "content too short" := by
  refine ⟨rfl, rfl, rfl, by decide⟩

/-- Claim C6, amended: grading a chunk whose content is shorter than 50
characters returns `is_relevant = false` with confidence exactly 0.9 and
reason "Content too short" (capitalised as in the source). -/
theorem grade_short_content (query : String) (chunk : RetrievedChunk)
    (h : chunk.content.length < MIN_CONTENT_LENGTH) :
    heuristicGrade query chunk =
      { is_relevant := false, reason := "Content too short", confidence := 9/10 } := by
  unfold heuristicGrade
  rw [if_pos h]

/-- Witness for `grade_short_content` at a concrete chunk. -/
theorem grade_short_content_witness :
    chunkShort.content.length < MIN_CONTENT_LENGTH ∧
      heuristicGrade "any query" chunkShort =
        { is_relevant := false, reason := "Content too short", confidence := 9/10 } :=
  ⟨by decide, grade_short_content "any query" chunkShort (by decide)⟩

/-- Claim C10: every chunk produced by the direct code-lookup strategy
carries `score_vec = score_fts = rrf_rank = 1`, and for every query such a
chunk with content of at least 50 characters is graded relevant with
confidence at least 0.7. -/
theorem code_lookup_trusted (rows : List StoreRow) (c : RetrievedChunk)
    (hc : c ∈ searchByCodeRows rows) :
    c.score_vec = 1 ∧ c.score_fts = 1 ∧ c.rrf_rank = 1 ∧
      ∀ query : String, MIN_CONTENT_LENGTH ≤ c.content.length →
        (heuristicGrade query c).is_relevant = true ∧
          7/10 ≤ (heuristicGrade query c).confidence := by
  obtain ⟨r, _, rfl⟩ := List.mem_map.mp hc
  refine ⟨rfl, rfl, rfl, fun query hlen => ⟨?_, ?_⟩⟩
  · exact heuristicGrade_long_relevant query _ hlen (Or.inl (by norm_num))
  · rw [heuristicGrade_long_confidence query _ hlen]
    have hk := keywordMatchScore_nonneg query r.content
    simp only [le_min_iff, max_self]
    constructor
    · linarith
    · norm_num

/-- Witness for `code_lookup_trusted` at a concrete row list. -/
theorem code_lookup_trusted_witness :
    ∃ c, c ∈ searchByCodeRows
        [{ chunk_id := 8, reg_doc_id := 3, reg_code := "5.1", url := none,
           heading := none,
           content := "This chunk content is certainly longer than fifty characters in total." }] ∧
      c.score_vec = 1 ∧
      MIN_CONTENT_LENGTH ≤ c.content.length ∧
      (heuristicGrade "exam rules" c).is_relevant = true ∧
      7/10 ≤ (heuristicGrade "exam rules" c).confidence := by
  refine ⟨_, List.mem_map.mpr ⟨_, List.mem_singleton.mpr rfl, rfl⟩, ?_⟩
  have h := code_lookup_trusted
    [{ chunk_id := 8, reg_doc_id := 3, reg_code := "5.1", url := none,
       heading := none,
       content := "This chunk content is certainly longer than fifty characters in total." }]
    _ (List.mem_map.mpr ⟨_, List.mem_singleton.mpr rfl, rfl⟩)
  obtain ⟨h1, _, _, h4⟩ := h
  obtain ⟨h5, h6⟩ := h4 "exam rules" (by decide)
  exact ⟨h1, by decide, h5, h6⟩

/-! ## Claims C7 and C8 -/

/-- Claim C7: every `GenerationResult` the answer stage produces with
`has_sufficient_evidence = false` — through the insufficient-evidence path
or the generation-failure path — has an empty citation sequence and
confidence exactly 0. -/
theorem insufficient_evidence_invariant (llm : String → Except String String)
    (st : RunState) (r : GenerationResult)
    (hg : (generateAnswer llm st).generation = some r)
    (h : r.has_sufficient_evidence = false) :
    r.citations = [] ∧ r.confidence = 0 := by
  unfold generateAnswer at hg
  by_cases hc :
      (if st.relevant_chunks.isEmpty then st.retrieval else st.relevant_chunks).isEmpty
  · rw [if_pos hc] at hg
    simp only [Option.some.injEq] at hg
    subst hg
    exact ⟨rfl, rfl⟩
  · rw [if_neg hc] at hg
    dsimp only at hg
    cases hllm : llm (generatePrompt st.query
        (buildContext ((if st.relevant_chunks.isEmpty then st.retrieval
          else st.relevant_chunks).take 8))) with
    | ok a =>
      rw [hllm] at hg
      simp only [Option.some.injEq] at hg
      subst hg
      simp at h
    | error e =>
      rw [hllm] at hg
      simp only [Option.some.injEq] at hg
      subst hg
      exact ⟨rfl, rfl⟩

/-- Witness for `insufficient_evidence_invariant`: a failing completion
service on a nonempty evidence set yields empty citations and zero
confidence. -/
theorem insufficient_evidence_invariant_witness :
    ∃ r, (generateAnswer (fun _ => Except.error "boom")
        { query := "q", retrieval := [chunkLong], relevant_chunks := [chunkLong],
          query_history := ["q"] }).generation = some r ∧
      r.has_sufficient_evidence = false ∧ r.citations = [] ∧ r.confidence = 0 := by
  refine ⟨_, rfl, rfl, ?_⟩
  exact insufficient_evidence_invariant (fun _ => Except.error "boom")
    { query := "q", retrieval := [chunkLong], relevant_chunks := [chunkLong],
      query_history := ["q"] } _ rfl rfl

/-- Claim C8: when the set of chunks available for generation (the relevant
chunks, else the raw retrieval) is empty, the answer stage returns
confidence 0, empty citations and `has_sufficient_evidence = false`, with
the findings line for "no chunks retrieved"; and the findings builder
reports the chunk count for a nonempty retrieval none of whose chunks was
relevant, so the two cases produce distinct findings strings. -/
theorem synthesize_empty_evidence (llm : String → Except String String)
    (st : RunState) (hrel : st.relevant_chunks = []) (hret : st.retrieval = []) :
    ((generateAnswer llm st).generation = some (buildInsufficientResponse st) ∧
      (buildInsufficientResponse st).confidence = 0 ∧
      (buildInsufficientResponse st).citations = [] ∧
      (buildInsufficientResponse st).has_sufficient_evidence = false ∧
      buildFindings st.retrieval = "No matching documents were found in the database.") ∧
    ∀ l : List RetrievedChunk, l ≠ [] →
      buildFindings l =
        "Found " ++ toString l.length ++
          " document chunks, but none were relevant to your specific question." := by
  constructor
  · refine ⟨?_, rfl, rfl, rfl, ?_⟩
    · unfold generateAnswer
      rw [hrel, hret]
      rfl
    · rw [hret]
      rfl
  · intro l hl
    unfold buildFindings
    rw [if_neg (by simpa using hl)]

/-- Witness for `synthesize_empty_evidence` on the empty initial retrieval. -/
theorem synthesize_empty_evidence_witness :
    (generateAnswer (fun _ => Except.error "unused")
        { query := "q", retrieval := [], relevant_chunks := [],
          query_history := ["q"] }).generation =
      some (buildInsufficientResponse
        { query := "q", retrieval := [], relevant_chunks := [],
          query_history := ["q"] }) ∧
    buildFindings ([] : List RetrievedChunk) =
      "No matching documents were found in the database." ∧
    buildFindings [chunkLong] =
      "Found 1 document chunks, but none were relevant to your specific question." := by
  have h := synthesize_empty_evidence (fun _ => Except.error "unused")
    { query := "q", retrieval := [], relevant_chunks := [], query_history := ["q"] }
    rfl rfl
  refine ⟨h.1.1, h.1.2.2.2.2, ?_⟩
  have h2 := h.2 [chunkLong] (by simp)
  simpa using h2

/-! ## Claim C9 -/

theorem routeQuery_search_iterations (st : RunState) :
    (routeQuery st).search_iterations = st.search_iterations := by
  unfold routeQuery
  dsimp only
  split
  · rfl
  · split <;> rfl

theorem gradeDocuments_search_iterations (st : RunState) :
    (gradeDocuments st).search_iterations = st.search_iterations := by
  unfold gradeDocuments
  split <;> rfl

theorem generateAnswer_search_iterations (llm : String → Except String String)
    (st : RunState) :
    (generateAnswer llm st).search_iterations = st.search_iterations := by
  unfold generateAnswer
  dsimp only
  repeat' split
  all_goals rfl

/-- The workflow run is definitionally the linear composition of the four
node functions. -/
theorem runAgent_eq (o : Oracles) (q : String) (t : Option String) :
    runAgent o q t =
      ([GraphNode.route, GraphNode.retrieve, GraphNode.grade, GraphNode.generate],
        generateAnswer o.llm (gradeDocuments
          (retrieveDocuments o.store o.embedSvc (routeQuery (initialState q t))))) :=
  rfl

/-- Claim C9: in every run of the active workflow the four stages execute
exactly once each, in the fixed order route, retrieve, grade, generate,
with no cycle; the grade node's only outgoing edge goes to generate; and
the final state's `search_iterations` is exactly 1. -/
theorem workflow_linear_single_pass (o : Oracles) (q : String) (t : Option String) :
    (runAgent o q t).1 =
      [GraphNode.route, GraphNode.retrieve, GraphNode.grade, GraphNode.generate] ∧
    graphEdge GraphNode.grade = some GraphNode.generate ∧
    (runAgent o q t).2.search_iterations = 1 := by
  refine ⟨by rw [runAgent_eq], rfl, ?_⟩
  rw [runAgent_eq]
  dsimp only
  rw [generateAnswer_search_iterations, gradeDocuments_search_iterations]
  show (retrieveDocuments o.store o.embedSvc (routeQuery (initialState q t))).search_iterations = 1
  unfold retrieveDocuments
  dsimp only
  rw [routeQuery_search_iterations]
  rfl

/-! ## Helper lemmas about the stable descending sort and the scored union -/

/-- The descending-score relation of the fusion sort. -/
def scoreGE (a b : ℚ × RetrievedChunk) : Prop := b.1 ≤ a.1

theorem mem_insertDesc {z x : ℚ × RetrievedChunk} {l : List (ℚ × RetrievedChunk)} :
    z ∈ insertDesc x l ↔ z = x ∨ z ∈ l := by
  induction l with
  | nil => simp [insertDesc]
  | cons y ys ih =>
    unfold insertDesc
    split
    · simp only [List.mem_cons, ih]
      tauto
    · simp only [List.mem_cons]

theorem insertDesc_perm (x : ℚ × RetrievedChunk) (l : List (ℚ × RetrievedChunk)) :
    (insertDesc x l).Perm (x :: l) := by
  induction l with
  | nil => exact List.Perm.refl _
  | cons y ys ih =>
    unfold insertDesc
    split
    · exact ((ih.cons y).trans (List.Perm.swap x y ys))
    · exact List.Perm.refl _

theorem insertDesc_pairwise {x : ℚ × RetrievedChunk} {l : List (ℚ × RetrievedChunk)}
    (h : l.Pairwise scoreGE) : (insertDesc x l).Pairwise scoreGE := by
  induction l with
  | nil => simp [insertDesc, List.pairwise_singleton]
  | cons y ys ih =>
    rw [List.pairwise_cons] at h
    unfold insertDesc
    split
    · rw [List.pairwise_cons]
      refine ⟨fun z hz => ?_, ih h.2⟩
      rcases mem_insertDesc.mp hz with rfl | hz
      · assumption
      · exact h.1 z hz
    · rw [List.pairwise_cons]
      refine ⟨fun z hz => ?_, List.pairwise_cons.mpr h⟩
      rcases List.mem_cons.mp hz with rfl | hz
      · exact le_of_not_le (by assumption)
      · exact le_trans (h.1 z hz) (le_of_not_le (by assumption))

theorem filter_insertDesc (s : ℚ) {x : ℚ × RetrievedChunk}
    {l : List (ℚ × RetrievedChunk)} (h : l.Pairwise scoreGE) :
    (insertDesc x l).filter (fun z => decide (z.1 = s)) =
      if x.1 = s then l.filter (fun z => decide (z.1 = s)) ++ [x]
      else l.filter (fun z => decide (z.1 = s)) := by
  induction l with
  | nil =>
    unfold insertDesc
    by_cases hx : x.1 = s <;> simp [hx]
  | cons y ys ih =>
    rw [List.pairwise_cons] at h
    unfold insertDesc
    split
    · rw [List.filter_cons, List.filter_cons]
      by_cases hy : y.1 = s <;> by_cases hx : x.1 = s <;>
        simp [hx, hy, ih h.2]
    · have hlt : y.1 < x.1 := lt_of_not_le (by assumption)
      rw [List.filter_cons]
      by_cases hx : x.1 = s
      · have hy : ¬ y.1 = s := by
          intro hys
          rw [hys] at hlt
          exact absurd (hx ▸ hlt) (lt_irrefl s)
        have hys : List.filter (fun z => decide (z.1 = s)) (y :: ys) = [] := by
          rw [List.filter_eq_nil_iff]
          intro z hz
          rcases List.mem_cons.mp hz with rfl | hz
          · simpa using hy
          · have : z.1 ≤ y.1 := h.1 z hz
            simp only [decide_eq_true_eq]
            intro hzs
            rw [hzs] at this
            exact absurd (lt_of_le_of_lt this hlt) (by rw [hx]; exact lt_irrefl s)
        simp [hx, hys]
      · rw [if_neg hx]
        simp [hx]

theorem foldl_insertDesc_pairwise (l acc : List (ℚ × RetrievedChunk))
    (hacc : acc.Pairwise scoreGE) :
    (l.foldl (fun a x => insertDesc x a) acc).Pairwise scoreGE := by
  induction l generalizing acc with
  | nil => exact hacc
  | cons y ys ih => exact ih _ (insertDesc_pairwise hacc)

theorem foldl_insertDesc_perm (l acc : List (ℚ × RetrievedChunk)) :
    (l.foldl (fun a x => insertDesc x a) acc).Perm (acc ++ l) := by
  induction l generalizing acc with
  | nil => simp
  | cons y ys ih =>
    refine (ih (insertDesc y acc)).trans ?_
    have h1 : (insertDesc y acc ++ ys).Perm ((y :: acc) ++ ys) :=
      (insertDesc_perm y acc).append_right ys
    refine h1.trans ?_
    simp only [List.cons_append]
    exact (List.perm_middle).symm

theorem foldl_insertDesc_filter (s : ℚ) (l acc : List (ℚ × RetrievedChunk))
    (hacc : acc.Pairwise scoreGE) :
    (l.foldl (fun a x => insertDesc x a) acc).filter (fun z => decide (z.1 = s)) =
      acc.filter (fun z => decide (z.1 = s)) ++
        l.filter (fun z => decide (z.1 = s)) := by
  induction l generalizing acc with
  | nil => simp
  | cons y ys ih =>
    simp only [List.foldl_cons]
    rw [ih _ (insertDesc_pairwise hacc), filter_insertDesc s hacc, List.filter_cons]
    by_cases hy : y.1 = s <;> simp [hy]

theorem sortDescStable_pairwise (l : List (ℚ × RetrievedChunk)) :
    (sortDescStable l).Pairwise scoreGE :=
  foldl_insertDesc_pairwise l [] List.Pairwise.nil

theorem sortDescStable_perm (l : List (ℚ × RetrievedChunk)) :
    (sortDescStable l).Perm l :=
  (foldl_insertDesc_perm l []).trans (by simp)

theorem sortDescStable_filter (s : ℚ) (l : List (ℚ × RetrievedChunk)) :
    (sortDescStable l).filter (fun z => decide (z.1 = s)) =
      l.filter (fun z => decide (z.1 = s)) := by
  rw [sortDescStable, foldl_insertDesc_filter s l [] List.Pairwise.nil]
  rfl

theorem lookupLast_eq_some {l : List RetrievedChunk} {id : Nat} {c : RetrievedChunk}
    (h : lookupLast l id = some c) : c ∈ l ∧ c.chunk_id = id := by
  induction l with
  | nil => simp [lookupLast] at h
  | cons d ds ih =>
    unfold lookupLast at h
    cases hds : lookupLast ds id with
    | some e =>
      rw [hds] at h
      obtain ⟨h1, h2⟩ := ih (hds.trans h)
      exact ⟨List.mem_cons_of_mem d h1, h2⟩
    | none =>
      rw [hds] at h
      by_cases hd : d.chunk_id = id
      · rw [if_pos hd] at h
        simp only [Option.some.injEq] at h
        subst h
        exact ⟨List.mem_cons_self d ds, hd⟩
      · rw [if_neg hd] at h
        cases h

theorem lookupLast_isSome_of_mem {l : List RetrievedChunk} {id : Nat}
    (h : id ∈ l.map fun c => c.chunk_id) : (lookupLast l id).isSome := by
  induction l with
  | nil => simp at h
  | cons d ds ih =>
    unfold lookupLast
    cases hds : lookupLast ds id with
    | some e => rfl
    | none =>
      simp only [List.map_cons, List.mem_cons] at h
      rcases h with h | h
      · rw [if_pos h.symm]
        rfl
      · have := ih h
        rw [hds] at this
        simp at this

/-- Every entry of the scored union carries the RRF score of its chunk id,
and its chunk comes from one of the two result lists. -/
theorem mem_scoredUnion {vec fts : List RetrievedChunk} {p : ℚ × RetrievedChunk}
    (h : p ∈ scoredUnion vec fts) :
    p.1 = rrfScoreAt vec fts p.2.chunk_id ∧ (p.2 ∈ vec ∨ p.2 ∈ fts) := by
  obtain ⟨id, _, hp⟩ := List.mem_filterMap.mp h
  cases hv : lookupLast vec id with
  | some c =>
    rw [hv] at hp
    simp only [Option.map_some', Option.some.injEq] at hp
    obtain ⟨hc, hcid⟩ := lookupLast_eq_some hv
    subst hp
    exact ⟨by rw [hcid], Or.inl hc⟩
  | none =>
    rw [hv] at hp
    cases hf : lookupLast fts id with
    | some c =>
      rw [hf] at hp
      simp only [Option.map_some', Option.some.injEq] at hp
      obtain ⟨hc, hcid⟩ := lookupLast_eq_some hf
      subst hp
      exact ⟨by rw [hcid], Or.inr hc⟩
    | none =>
      rw [hf] at hp
      simp at hp

theorem lastIdxOfAux_eq_none {l : List RetrievedChunk} {id : Nat}
    (h : id ∉ l.map fun c => c.chunk_id) (k : Nat) :
    lastIdxOf.lastIdxOfAux l id k = none := by
  induction l generalizing k with
  | nil => rfl
  | cons d ds ih =>
    simp only [List.map_cons, List.mem_cons, not_or] at h
    unfold lastIdxOf.lastIdxOfAux
    rw [ih h.2 (k + 1)]
    rw [if_neg (fun hd => h.1 hd.symm)]

theorem lastIdxOfAux_of_get {l : List RetrievedChunk} {id : Nat}
    (hnd : (l.map fun c => c.chunk_id).Nodup) {i : Nat} (hi : i < l.length)
    (hid : (l.get ⟨i, hi⟩).chunk_id = id) (k : Nat) :
    lastIdxOf.lastIdxOfAux l id k = some (k + i) := by
  induction l generalizing i k with
  | nil => exact absurd hi (Nat.not_lt_zero i)
  | cons d ds ih =>
    simp only [List.map_cons, List.nodup_cons] at hnd
    unfold lastIdxOf.lastIdxOfAux
    cases i with
    | zero =>
      simp only [List.get] at hid
      rw [lastIdxOfAux_eq_none (hid ▸ hnd.1) (k + 1)]
      simp [hid]
    | succ i2 =>
      simp only [List.length_cons, Nat.succ_lt_succ_iff] at hi
      rw [ih hnd.2 hi hid (k + 1)]
      show some (k + 1 + i2) = some (k + (i2 + 1))
      congr 1
      omega

theorem lastIdxOf_eq_some_of_get {l : List RetrievedChunk} {id : Nat}
    (hnd : (l.map fun c => c.chunk_id).Nodup) {i : Nat} (hi : i < l.length)
    (hid : (l.get ⟨i, hi⟩).chunk_id = id) : lastIdxOf l id = some i := by
  have := lastIdxOfAux_of_get hnd hi hid 0
  simpa [lastIdxOf] using this

theorem lastIdxOf_eq_none {l : List RetrievedChunk} {id : Nat}
    (h : id ∉ l.map fun c => c.chunk_id) : lastIdxOf l id = none :=
  lastIdxOfAux_eq_none h 0

/-- Every fused output chunk records the RRF score of its chunk id. -/
theorem rrfFuse_rank_eq (vec fts : List RetrievedChunk) :
    ∀ c ∈ rrfFuse vec fts, c.rrf_rank = rrfScoreAt vec fts c.chunk_id := by
  intro c hc
  unfold rrfFuse at hc
  obtain ⟨p, hp, rfl⟩ := List.mem_map.mp hc
  have hp2 : p ∈ sortDescStable (scoredUnion vec fts) :=
    (List.take_sublist _ _).subset hp
  have hp3 : p ∈ scoredUnion vec fts := (sortDescStable_perm _).mem_iff.mp hp2
  exact (mem_scoredUnion hp3).1

/-- Every fused output chunk comes from one of the two input lists. -/
theorem rrfFuse_mem (vec fts : List RetrievedChunk) :
    ∀ c ∈ rrfFuse vec fts,
      c.chunk_id ∈ vec.map (fun x => x.chunk_id) ∨
        c.chunk_id ∈ fts.map (fun x => x.chunk_id) := by
  intro c hc
  unfold rrfFuse at hc
  obtain ⟨p, hp, rfl⟩ := List.mem_map.mp hc
  have hp3 : p ∈ scoredUnion vec fts :=
    (sortDescStable_perm _).mem_iff.mp ((List.take_sublist _ _).subset hp)
  rcases (mem_scoredUnion hp3).2 with h | h
  · exact Or.inl (List.mem_map.mpr ⟨p.2, h, rfl⟩)
  · exact Or.inr (List.mem_map.mpr ⟨p.2, h, rfl⟩)

/-! ## Claims C2 and C3 -/

/-- Claim C2: for every chunk of the hybrid-fusion output appearing at
0-based rank `i` in the vector result list and 0-based rank `j` in the
full-text result list, the recorded fusion score is exactly
`1/(60+i+1) + 1/(60+j+1)`; a chunk present in only one of the two lists
receives only the corresponding single term.  The hypotheses hold for the
lists `_search_hybrid` fuses: chunk ids are SQL primary keys within one
result set and each list is capped at `LIMIT 20`, far below the 999
sentinel of the fusion loop. -/
theorem rrf_fusion_score_exact (vec fts : List RetrievedChunk)
    (hv : (vec.map fun c => c.chunk_id).Nodup)
    (hf : (fts.map fun c => c.chunk_id).Nodup)
    (hlv : vec.length ≤ 999) (hlf : fts.length ≤ 999) :
    ∀ c ∈ rrfFuse vec fts,
      (∀ (i j : Nat) (hi : i < vec.length) (hj : j < fts.length),
        (vec.get ⟨i, hi⟩).chunk_id = c.chunk_id →
        (fts.get ⟨j, hj⟩).chunk_id = c.chunk_id →
        c.rrf_rank = 1 / (60 + (i : ℚ) + 1) + 1 / (60 + (j : ℚ) + 1)) ∧
      (∀ (i : Nat) (hi : i < vec.length),
        (vec.get ⟨i, hi⟩).chunk_id = c.chunk_id →
        c.chunk_id ∉ fts.map (fun x => x.chunk_id) →
        c.rrf_rank = 1 / (60 + (i : ℚ) + 1)) ∧
      (∀ (j : Nat) (hj : j < fts.length),
        (fts.get ⟨j, hj⟩).chunk_id = c.chunk_id →
        c.chunk_id ∉ vec.map (fun x => x.chunk_id) →
        c.rrf_rank = 1 / (60 + (j : ℚ) + 1)) := by
  intro c hc
  have hrank := rrfFuse_rank_eq vec fts c hc
  refine ⟨fun i j hi hj hvi hfj => ?_, fun i hi hvi hnf => ?_, fun j hj hfj hnv => ?_⟩
  · rw [hrank, rrfScoreAt, lastIdxOf_eq_some_of_get hv hi hvi,
      lastIdxOf_eq_some_of_get hf hj hfj, rrfTerm, rrfTerm]
    rw [if_pos (lt_of_lt_of_le hi hlv), if_pos (lt_of_lt_of_le hj hlf)]
    norm_num [RRF_K]
  · rw [hrank, rrfScoreAt, lastIdxOf_eq_some_of_get hv hi hvi,
      lastIdxOf_eq_none hnf, rrfTerm, rrfTerm]
    rw [if_pos (lt_of_lt_of_le hi hlv)]
    norm_num [RRF_K]
  · rw [hrank, rrfScoreAt, lastIdxOf_eq_none hnv,
      lastIdxOf_eq_some_of_get hf hj hfj, rrfTerm, rrfTerm]
    rw [if_pos (lt_of_lt_of_le hj hlf)]
    norm_num [RRF_K]

/-- Concrete vector result list for the fusion witnesses. -/
def vecW : List RetrievedChunk :=
  [{ chunk_id := 1, reg_doc_id := 0, reg_code := "a", content := "x" },
   { chunk_id := 2, reg_doc_id := 0, reg_code := "b", content := "y" }]

/-- Concrete full-text result list for the fusion witnesses. -/
def ftsW : List RetrievedChunk :=
  [{ chunk_id := 2, reg_doc_id := 0, reg_code := "b", content := "y" },
   { chunk_id := 3, reg_doc_id := 0, reg_code := "c", content := "z" }]

/-- The fused output chunk of id 2 in the fusion witness. -/
def chunkW : RetrievedChunk :=
  { chunk_id := 2, reg_doc_id := 0, reg_code := "b", content := "y",
    score_vec := 0, score_fts := 0, rrf_rank := 123/3782 }

/-- Witness for `rrf_fusion_score_exact`: on a two-by-two example, the chunk
at vector rank 1 and full-text rank 0 records `1/62 + 1/61`. -/
theorem rrf_fusion_score_exact_witness :
    ∃ c ∈ rrfFuse vecW ftsW,
      c.chunk_id = 2 ∧ c.rrf_rank = 1 / (60 + (1 : ℚ) + 1) + 1 / (60 + (0 : ℚ) + 1) := by
  have hfuse : rrfFuse vecW ftsW =
      [chunkW,
       { chunk_id := 1, reg_doc_id := 0, reg_code := "a", content := "x",
         score_vec := 0, score_fts := 0, rrf_rank := 1/61 },
       { chunk_id := 3, reg_doc_id := 0, reg_code := "c", content := "z",
         score_vec := 0, score_fts := 0, rrf_rank := 1/62 }] := by
    have h1 : unionIds vecW ftsW = [1, 2, 3] := by decide
    rw [rrfFuse, scoredUnion, h1]
    norm_num [lookupLast, lastIdxOf, lastIdxOf.lastIdxOfAux, rrfScoreAt, rrfTerm,
      vecW, ftsW, RRF_K, sortDescStable, insertDesc, TOP_K_FINAL, chunkW,
      List.filterMap_cons, List.foldl_cons, List.foldl_nil]
  have hmem : chunkW ∈ rrfFuse vecW ftsW := by
    rw [hfuse]
    exact List.mem_cons_self _ _
  have h := rrf_fusion_score_exact vecW ftsW (by decide) (by decide)
    (by decide) (by decide)
  exact ⟨chunkW, hmem, rfl, (h chunkW hmem).1 1 0 (by decide) (by decide) rfl rfl⟩

/-- Claim C3: the hybrid-fusion output is the union of the vector and
full-text result lists sorted by combined RRF score in descending order,
ties broken by the stable insertion order of the union enumeration,
truncated to at most 12 chunks: (1) at most 12 chunks are returned; (2) the
recorded fusion scores are descending; (3) every output chunk comes from
the union; (4) every union chunk id is scored (so only the truncation
drops chunks); (5) stably — within each tie class the output is a prefix of
the scored union in its enumeration order. -/
theorem rrf_fusion_sorted_truncated (vec fts : List RetrievedChunk) :
    (rrfFuse vec fts).length ≤ TOP_K_FINAL ∧
    (rrfFuse vec fts).Pairwise (fun a b => b.rrf_rank ≤ a.rrf_rank) ∧
    (∀ c ∈ rrfFuse vec fts,
      c.chunk_id ∈ vec.map (fun x => x.chunk_id) ∨
        c.chunk_id ∈ fts.map (fun x => x.chunk_id)) ∧
    (∀ id : Nat,
      (id ∈ vec.map (fun x => x.chunk_id) ∨ id ∈ fts.map (fun x => x.chunk_id)) →
      ∃ p ∈ scoredUnion vec fts, p.2.chunk_id = id) ∧
    (∀ s : ℚ,
      (rrfFuse vec fts).filter (fun c => decide (c.rrf_rank = s)) <+:
        ((scoredUnion vec fts).filter (fun p => decide (p.1 = s))).map
          (fun p => { p.2 with rrf_rank := p.1 })) := by
  refine ⟨?_, ?_, rrfFuse_mem vec fts, ?_, ?_⟩
  · rw [rrfFuse, List.length_map]
    exact List.length_take_le _ _
  · rw [rrfFuse, List.pairwise_map]
    exact ((sortDescStable_pairwise (scoredUnion vec fts)).sublist
      (List.take_sublist _ _))
  · intro id hid
    have hu : id ∈ unionIds vec fts := by
      rw [unionIds, List.mem_dedup, List.mem_append]
      exact hid
    cases hv : lookupLast vec id with
    | some c =>
      refine ⟨(rrfScoreAt vec fts id, c), List.mem_filterMap.mpr ⟨id, hu, ?_⟩,
        (lookupLast_eq_some hv).2⟩
      rw [hv]
      rfl
    | none =>
      cases hf : lookupLast fts id with
      | some c =>
        refine ⟨(rrfScoreAt vec fts id, c), List.mem_filterMap.mpr ⟨id, hu, ?_⟩,
          (lookupLast_eq_some hf).2⟩
        rw [hv, hf]
        rfl
      | none =>
        exfalso
        rcases hid with h | h
        · have := lookupLast_isSome_of_mem h
          rw [hv] at this
          simp at this
        · have := lookupLast_isSome_of_mem h
          rw [hf] at this
          simp at this
  · intro s
    rw [rrfFuse, List.filter_map]
    have hq : ((fun c => decide (c.rrf_rank = s)) ∘
        fun p : ℚ × RetrievedChunk => { p.2 with rrf_rank := p.1 }) =
        fun z : ℚ × RetrievedChunk => decide (z.1 = s) := rfl
    rw [hq]
    refine List.IsPrefix.map _ ?_
    rw [← sortDescStable_filter s (scoredUnion vec fts)]
    exact (List.take_prefix _ _).filter _

/-! ## Claim C1 -/

theorem searchAllChunks_ne_nil {store : Store} (h : store.corpus ≠ []) :
    searchAllChunks store ≠ [] := by
  intro hnil
  rw [searchAllChunks, List.map_eq_nil_iff, List.take_eq_nil_iff] at hnil
  rcases hnil with h12 | hc
  · simp [TOP_K_FINAL] at h12
  · exact h hc

/-- Claim C1: `retrieve_documents` is total over every behaviour of the
embedding service and the store's search strategies — each is modelled as
an `Option` whose `none` is a raised exception, and the result type is a
plain list, so no failure escapes to the caller; the conjuncts state the
fallback chain (a failed code lookup falls to the corpus sample, a failed
hybrid search falls to full-text-only search, a failed or blank full-text
path falls to the corpus sample), and on every non-empty corpus the
returned chunk list is non-empty. -/
theorem retrieve_fallback_chain_total (store : Store)
    (embedSvc : String → Option (List ℚ)) (q : String) (qt : QueryType)
    (rr : Option RouterResult) (hcorpus : store.corpus ≠ []) :
    retrieveChunks store embedSvc q qt rr ≠ [] ∧
    (∀ code, (if qt = QueryType.CODE then truthyCode rr else none) = some code →
      store.byCode code = none →
      retrieveChunks store embedSvc q qt rr = searchAllChunks store) ∧
    ((if qt = QueryType.CODE then truthyCode rr else none) = none →
      (q ≠ "" ∧ pyStrip q ≠ "") →
      (embedSvc q).bind (fun e => searchHybrid store q e) = none →
      ∀ l, searchTextOnly store q = some l → l ≠ [] →
        retrieveChunks store embedSvc q qt rr = l) ∧
    ((if qt = QueryType.CODE then truthyCode rr else none) = none →
      (q ≠ "" ∧ pyStrip q ≠ "") →
      (embedSvc q).bind (fun e => searchHybrid store q e) = none →
      searchTextOnly store q = none →
      retrieveChunks store embedSvc q qt rr = searchAllChunks store) ∧
    ((if qt = QueryType.CODE then truthyCode rr else none) = none →
      ¬(q ≠ "" ∧ pyStrip q ≠ "") →
      retrieveChunks store embedSvc q qt rr = searchAllChunks store) := by
  refine ⟨?_, ?_, ?_, ?_, ?_⟩
  · cases hp : retrievePrimary store embedSvc q qt rr with
    | none =>
      rw [retrieveChunks, hp]
      exact searchAllChunks_ne_nil hcorpus
    | some chunks =>
      rw [retrieveChunks, hp]
      dsimp only
      split
      · exact searchAllChunks_ne_nil hcorpus
      · intro hnil
        exact (by assumption : ¬chunks.isEmpty = true) (by simp [hnil])
  · intro code hsel hbc
    have hp : retrievePrimary store embedSvc q qt rr = none := by
      rw [retrievePrimary, hsel]
      dsimp only
      rw [hbc]
      rfl
    rw [retrieveChunks, hp]
  · intro hsel hq hhyb l hfts hl
    have hp : retrievePrimary store embedSvc q qt rr = some l := by
      rw [retrievePrimary, hsel]
      dsimp only
      rw [if_pos hq, hhyb]
      exact hfts
    rw [retrieveChunks, hp]
    dsimp only
    rw [if_neg (by simpa [List.isEmpty_iff] using hl)]
  · intro hsel hq hhyb hfts
    have hp : retrievePrimary store embedSvc q qt rr = none := by
      rw [retrievePrimary, hsel]
      dsimp only
      rw [if_pos hq, hhyb]
      exact hfts
    rw [retrieveChunks, hp]
  · intro hsel hq
    have hp : retrievePrimary store embedSvc q qt rr = some [] := by
      rw [retrievePrimary, hsel]
      dsimp only
      rw [if_neg hq]
    rw [retrieveChunks, hp]
    rfl

/-- Corpus row of the retrieval witness. -/
def rowW : StoreRow :=
  { chunk_id := 1, reg_doc_id := 1, reg_code := "1.1", content := "body" }

/-- A store whose every search strategy raises, over a one-row corpus. -/
def storeW : Store :=
  { corpus := [rowW], byCode := fun _ => none, vector := fun _ => none,
    fts := fun _ => none }

/-- Witness for `retrieve_fallback_chain_total`: with a failing embedding
service, failing search strategies and a non-empty corpus, retrieval
degrades to the corpus sample and still returns a non-empty list. -/
theorem retrieve_fallback_chain_total_witness :
    retrieveChunks storeW (fun _ => none) "query" QueryType.VECTOR none ≠ [] ∧
      retrieveChunks storeW (fun _ => none) "query" QueryType.VECTOR none =
        searchAllChunks storeW := by
  have h := retrieve_fallback_chain_total storeW (fun _ => none) "query"
    QueryType.VECTOR none (by simp [storeW])
  refine ⟨h.1, ?_⟩
  refine h.2.2.2.1 rfl (by decide) rfl ?_
  rw [searchTextOnly, if_neg (by decide)]
  rfl

/-! ## Claim C4

A "dotted-numeric token" is a maximal `\d+(\.\d+)+` word: a digit group
followed by at least one dot-digit group, delimited by word boundaries.
The predicate below states that a query contains one; the completeness
lemmas show the scanner of `CODE_PATTERN` cannot miss it. -/

/-- A non-empty group of digits. -/
def DigitGroup (g : List Char) : Prop := g ≠ [] ∧ ∀ c ∈ g, c.isDigit = true

instance : DecidablePred DigitGroup := fun g =>
  decidable_of_iff (g ≠ [] ∧ ∀ c ∈ g, c.isDigit = true) Iff.rfl

/-- The shape `\d+(\.\d+)+` of a dotted-numeric token. -/
def DottedShape (t : List Char) : Prop :=
  ∃ d gs, t = d ++ (gs.map (fun g => '.' :: g)).flatten ∧
    DigitGroup d ∧ gs ≠ [] ∧ ∀ g ∈ gs, DigitGroup g

/-- The query contains a word-bounded dotted-numeric token. -/
def ContainsDottedToken (s : List Char) : Prop :=
  ∃ a t b, s = a ++ t ++ b ∧ DottedShape t ∧
    (∀ c, a.getLast? = some c → isWordChar c = false) ∧
    (∀ c, b.head? = some c → isWordChar c = false)

theorem isWordChar_of_isDigit {c : Char} (h : c.isDigit = true) :
    isWordChar c = true := by
  simp only [isWordChar, Char.isAlphanum, Bool.or_eq_true]
  exact Or.inl (Or.inl (Or.inr h))

theorem takeDigits_append {d : List Char} (r : List Char)
    (hd : ∀ c ∈ d, c.isDigit = true) :
    takeDigits (d ++ r) = d ++ takeDigits r ∧ dropDigits (d ++ r) = dropDigits r := by
  induction d with
  | nil => simp
  | cons c d2 ih =>
    have hc : c.isDigit = true := hd c (List.mem_cons_self c d2)
    have ih2 := ih fun x hx => hd x (List.mem_cons_of_mem c hx)
    simp only [List.cons_append, takeDigits, dropDigits, hc, if_true, List.append_eq]
    exact ⟨by rw [ih2.1], ih2.2⟩

theorem takeDigits_eq_nil {r : List Char}
    (hr : ∀ c, r.head? = some c → c.isDigit = false) :
    takeDigits r = [] ∧ dropDigits r = r := by
  cases r with
  | nil => exact ⟨rfl, rfl⟩
  | cons c cs =>
    have := hr c rfl
    simp [takeDigits, dropDigits, this]

theorem parseGroups_nil : parseGroups [] = ([], []) := rfl

theorem parseGroups_dot (cs : List Char) :
    parseGroups ('.' :: cs) =
      if (takeDigits cs).isEmpty then ([], '.' :: cs)
      else (('.' :: takeDigits cs) :: (parseGroups (dropDigits cs)).1,
            (parseGroups (dropDigits cs)).2) := by
  show parseGroupsF ('.' :: cs).length ('.' :: cs) = _
  rw [List.length_cons, parseGroupsF_succ_dot,
    parseGroupsF_fuel cs.length (dropDigits cs).length (dropDigits cs)
      (dropDigits_length_le cs) (le_refl _)]
  rfl

theorem parseGroups_other {c : Char} (cs : List Char) (h : ¬ c = '.') :
    parseGroups (c :: cs) = ([], c :: cs) := by
  show parseGroupsF (c :: cs).length (c :: cs) = ([], c :: cs)
  rw [List.length_cons]
  exact parseGroupsF_succ_other _ cs h

theorem parseGroups_fst_nil {s : List Char} (h : (parseGroups s).1 = []) :
    (parseGroups s).2 = s := by
  cases s with
  | nil => rw [parseGroups_nil]
  | cons c cs =>
    by_cases hc : c = '.'
    · subst hc
      rw [parseGroups_dot] at h ⊢
      by_cases hd : (takeDigits cs).isEmpty
      · rw [if_pos hd]
      · rw [if_neg hd] at h
        simp at h
    · rw [parseGroups_other cs hc]

theorem parseGroups_flatten_append {gs : List (List Char)}
    (hgs : ∀ g ∈ gs, DigitGroup g) {b : List Char}
    (hb : ∀ c, b.head? = some c → c.isDigit = false) :
    parseGroups ((gs.map (fun g => '.' :: g)).flatten ++ b) =
      (gs.map (fun g => '.' :: g) ++ (parseGroups b).1, (parseGroups b).2) := by
  induction gs with
  | nil => simp
  | cons g gs2 ih =>
    have hg : DigitGroup g := hgs g (List.mem_cons_self g gs2)
    have hgs2 : ∀ x ∈ gs2, DigitGroup x := fun x hx => hgs x (List.mem_cons_of_mem g hx)
    have hhead : ∀ c, ((gs2.map (fun g => '.' :: g)).flatten ++ b).head? = some c →
        c.isDigit = false := by
      cases gs2 with
      | nil => simpa using hb
      | cons g2 gs3 =>
        intro c hc
        simp only [List.map_cons, List.flatten_cons, List.cons_append,
          List.head?_cons, Option.some.injEq] at hc
        subst hc
        rfl
    have htake := takeDigits_append ((gs2.map (fun g => '.' :: g)).flatten ++ b) hg.2
    have htr := takeDigits_eq_nil hhead
    simp only [List.map_cons, List.flatten_cons, List.cons_append, List.append_assoc]
    rw [parseGroups_dot]
    rw [htake.1, htr.1, List.append_nil, htake.2, htr.2]
    rw [if_neg (by simpa [List.isEmpty_iff] using hg.1)]
    rw [ih hgs2]

theorem tryCodeAt_isSome {t b : List Char} (ht : DottedShape t)
    (hb : ∀ c, b.head? = some c → isWordChar c = false) :
    (tryCodeAt (t ++ b)).isSome = true := by
  obtain ⟨d, gs, rfl, hd, hgsne, hgs⟩ := ht
  have hbd : ∀ c, b.head? = some c → c.isDigit = false := by
    intro c hc
    cases hdig : c.isDigit
    · rfl
    · exact absurd (isWordChar_of_isDigit hdig) (by simp [hb c hc])
  have hGhead : ∀ c, ((gs.map (fun g => '.' :: g)).flatten ++ b).head? = some c →
      c.isDigit = false := by
    cases gs with
    | nil => simpa using hbd
    | cons g2 gs3 =>
      intro c hc
      simp only [List.map_cons, List.flatten_cons, List.cons_append,
        List.head?_cons, Option.some.injEq] at hc
      subst hc
      rfl
  have htake := takeDigits_append ((gs.map (fun g => '.' :: g)).flatten ++ b) hd.2
  have htr := takeDigits_eq_nil hGhead
  have hparse := parseGroups_flatten_append hgs hbd
  rw [tryCodeAt]
  rw [List.append_assoc, htake.1, htr.1, List.append_nil, htake.2, htr.2]
  rw [if_neg (by simpa [List.isEmpty_iff] using hd.1)]
  rw [hparse]
  dsimp only
  by_cases hba : boundaryAfter (parseGroups b).2
  · rw [if_neg (by simp [List.isEmpty_iff, hgsne]), if_pos hba]
    rfl
  · rw [if_neg (by simp [List.isEmpty_iff, hgsne]), if_neg hba]
    have hpb : (parseGroups b).1 ≠ [] := by
      intro hnil
      have h2 := parseGroups_fst_nil hnil
      rw [h2] at hba
      cases b with
      | nil => exact hba rfl
      | cons c cs =>
        have := hb c rfl
        simp [boundaryAfter, this] at hba
    have hlen : 2 ≤ (gs.map (fun g => '.' :: g) ++ (parseGroups b).1).length := by
      rw [List.length_append]
      have h1 : 1 ≤ (gs.map (fun g => '.' :: g)).length := by
        rw [List.length_map]
        exact List.length_pos.mpr hgsne
      have h2 : 1 ≤ ((parseGroups b).1).length := List.length_pos.mpr hpb
      omega
    rw [if_pos hlen]
    rfl

/-- The word-character flag the scanner carries after walking a prefix. -/
def flagAfter : List Char → Bool → Bool
  | [], f => f
  | c :: cs, _ => flagAfter cs (isWordChar c)

theorem flagAfter_eq_false {a : List Char} {flag : Bool}
    (hlast : ∀ c, a.getLast? = some c → isWordChar c = false)
    (hnil : a = [] → flag = false) : flagAfter a flag = false := by
  induction a generalizing flag with
  | nil => exact hnil rfl
  | cons c a2 ih =>
    show flagAfter a2 (isWordChar c) = false
    cases a2 with
    | nil => exact hlast c rfl
    | cons c2 a3 =>
      refine ih (fun x hx => hlast x ?_) (by simp)
      simpa [List.getLast?_cons_cons] using hx

theorem scanCode_isSome {a rest : List Char} {flag : Bool}
    (hflag : flagAfter a flag = false) (h : (tryCodeAt rest).isSome = true) :
    (scanCode (a ++ rest) flag).isSome = true := by
  induction a generalizing flag with
  | nil =>
    have hf : flag = false := hflag
    subst hf
    cases rest with
    | nil => simp [tryCodeAt, takeDigits] at h
    | cons c cs =>
      rw [List.nil_append, scanCode, if_neg (by simp)]
      cases htry : tryCodeAt (c :: cs)
      · rw [htry] at h
        simp at h
      · rfl
  | cons c a2 ih =>
    have hflag2 : flagAfter a2 (isWordChar c) = false := hflag
    rw [List.cons_append, scanCode]
    by_cases hf : flag
    · rw [if_pos hf]
      exact ih hflag2
    · rw [if_neg hf]
      cases htry : tryCodeAt (c :: (a2 ++ rest))
      · exact ih hflag2
      · rfl

theorem codeSearch_isSome {s : List Char} (h : ContainsDottedToken s) :
    (codeSearch s).isSome = true := by
  obtain ⟨a, t, b, rfl, ht, ha, hb⟩ := h
  rw [codeSearch, List.append_assoc]
  exact scanCode_isSome (flagAfter_eq_false ha fun _ => rfl) (tryCodeAt_isSome ht hb)

theorem detectCode_isSome {q : String} (h : ContainsDottedToken q.data) :
    (detectCode q).isSome = true := by
  rw [detectCode]
  cases hs : sectionSearch q.data
  · have := codeSearch_isSome h
    cases hc : codeSearch q.data
    · rw [hc] at this
      simp at this
    · rfl
  · rfl

/-- Claim C4, counterexample: the query "madde 6 5.1.2" contains the
word-bounded dotted-numeric token "5.1.2", but the Router extracts "6" —
the section-labeled pattern's token, which is not a dotted token — so
`extracted_code` is not the dotted-numeric token the claim requires. -/
theorem router_dotted_token_counterexample :
    ContainsDottedToken "madde 6 5.1.2".data ∧
    detectCode "madde 6 5.1.2" = some "6" ∧
    (routeQuery { query := "madde 6 5.1.2" }).query_type = QueryType.CODE ∧
    (routeQuery { query := "madde 6 5.1.2" }).router_result =
      some { query_type := QueryType.CODE, extracted_code := some "6",
             extracted_metadata := none,
             reasoning := "Detected regulation code pattern: 6" } ∧
    ("6" : String) ≠ "5.1.2" := by
  refine ⟨?_, by decide, by decide, by decide, by decide⟩
  refine ⟨"madde 6 ".data, "5.1.2".data, [], by decide, ?_, ?_, by simp⟩
  · exact ⟨['5'], [['1'], ['2']], by decide, by decide, by decide, by decide⟩
  · intro c hc
    have h1 : (("madde 6 ".data).getLast?) = some ' ' := by decide
    rw [h1] at hc
    injection hc with h2
    subst h2
    decide

/-- Claim C4, amended: for every query containing a word-bounded
dotted-numeric token, the Router classifies the query as `QueryType.CODE`
and extracts some code; the section/keyword-labeled pattern is preferred,
so the extracted code is the section pattern's token whenever that pattern
matches (which can differ from the dotted-numeric token, as the section
keyword also accepts an undotted number), and the bare dotted pattern is
used only otherwise. -/
theorem router_dotted_token_code (st : RunState)
    (h : ContainsDottedToken st.query.data) :
    (routeQuery st).query_type = QueryType.CODE ∧
    (∃ code, detectCode st.query = some code ∧
      (routeQuery st).router_result = some
        { query_type := QueryType.CODE, extracted_code := some code,
          extracted_metadata := none,
          reasoning := "Detected regulation code pattern: " ++ code }) ∧
    (∀ s, sectionSearch st.query.data = some s →
      detectCode st.query = some (String.mk s)) := by
  have hsome := detectCode_isSome h
  cases hc : detectCode st.query with
  | none =>
    rw [hc] at hsome
    simp at hsome
  | some code =>
    refine ⟨?_, ⟨code, rfl, ?_⟩, ?_⟩
    · unfold routeQuery
      dsimp only
      rw [hc]
    · unfold routeQuery
      dsimp only
      rw [hc]
    · intro s hs
      rw [← hc]
      unfold detectCode
      rw [hs]

/-- Witness for `router_dotted_token_code` on a concrete query with a
word-bounded dotted token and no section keyword. -/
theorem router_dotted_token_code_witness :
    ContainsDottedToken ("tell me about 6.3.4".data) ∧
    (routeQuery { query := "tell me about 6.3.4" }).query_type = QueryType.CODE ∧
    (routeQuery { query := "tell me about 6.3.4" }).router_result =
      some { query_type := QueryType.CODE, extracted_code := some "6.3.4",
             extracted_metadata := none,
             reasoning := "Detected regulation code pattern: 6.3.4" } := by
  have hct : ContainsDottedToken ("tell me about 6.3.4".data) := by
    refine ⟨"tell me about ".data, "6.3.4".data, [], by decide, ?_, ?_, by simp⟩
    · exact ⟨['6'], [['3'], ['4']], by decide, by decide, by decide, by decide⟩
    · intro c hc
      have h1 : (("tell me about ".data).getLast?) = some ' ' := by decide
      rw [h1] at hc
      injection hc with h2
      subst h2
      decide
  have h := router_dotted_token_code { query := "tell me about 6.3.4" } hct
  exact ⟨hct, h.1, by decide⟩
